import Mathlib

/-!
Shallow embedding of the AI-Engineer-Internship-Task repository's frontend
state layer (frontend/src/store.ts and the chat-actions hook) together with
the personality/memory core that the specification describes, and proofs of
the specification's claims about them.
-/

/-- The `model` object nested in an agent record (`firstAgent.model?.model`). -/
structure AgentModel where
  model : String
  deriving Repr, DecidableEq

/-- An agent record as the hook consumes it: `id`, optional `model`,
optional `db_id`. -/
structure AgentDetails where
  id : String
  model : Option AgentModel
  db_id : Option String
  deriving Repr, DecidableEq

/-- A team record; the hook only ever stores lists of these. -/
structure TeamDetails where
  id : String
  deriving Repr, DecidableEq

/-- One entry of the store's `endpoints` list. -/
structure EndpointEntry where
  endpoint : String
  id__endpoint : String
  deriving Repr, DecidableEq

/-- A chat message as the store keeps it. -/
structure ChatMessage where
  role : String
  content : String
  deriving Repr, DecidableEq

/-- One entry of the store's `sessionsData` list. -/
structure SessionEntry where
  session_id : String
  deriving Repr, DecidableEq

/-- The store's `mode` field: `'agent' | 'team'`. -/
inductive Mode where
  | agent
  | team
  deriving Repr, DecidableEq

/-- The zustand store's state fields (store.ts, interface `Store`), without
the setter closures and the DOM ref. -/
structure Store where
  hydrated : Bool
  userId : String
  streamingErrorMessage : String
  endpoints : List EndpointEntry
  isStreaming : Bool
  isEndpointActive : Bool
  isEndpointLoading : Bool
  messages : List ChatMessage
  selectedEndpoint : String
  authToken : String
  agents : List AgentDetails
  teams : List TeamDetails
  selectedModel : String
  mode : Mode
  sessionsData : Option (List SessionEntry)
  isSessionsLoading : Bool
  deriving Repr, DecidableEq

/-- `generateUserId` from store.ts: `'user_' + Math.random().toString(36)...
+ Date.now().toString(36)`, modelled over its two nondeterministic inputs. -/
def generateUserId (randomPart : String) (timePart : String) : String :=
  "user_" ++ randomPart ++ timePart

/-- The store's initial state (store.ts, the object literal passed to
`create`), with the one-time `generateUserId()` call made explicit. -/
def createStore (randomPart : String) (timePart : String) : Store :=
  { hydrated := false
    userId := generateUserId randomPart timePart
    streamingErrorMessage := ""
    endpoints := []
    isStreaming := false
    isEndpointActive := false
    isEndpointLoading := true
    messages := []
    selectedEndpoint := "https://ai-engineer-internship-task.onrender.com"
    authToken := ""
    agents := []
    teams := []
    selectedModel := ""
    mode := Mode.agent
    sessionsData := none
    isSessionsLoading := false }

/-- Argument of `setMessages`: a plain list or an updater function, as in
store.ts (`ChatMessage[] | ((prev) => ChatMessage[])`). -/
inductive MessagesArg where
  | list (messages : List ChatMessage)
  | update (f : List ChatMessage → List ChatMessage)

/-- Argument of `setSessionsData`: a plain list or an updater function. -/
inductive SessionsArg where
  | list (sessions : List SessionEntry)
  | update (f : Option (List SessionEntry) → Option (List SessionEntry))

def setHydrated (s : Store) : Store := { s with hydrated := true }

def setStreamingErrorMessage (v : String) (s : Store) : Store :=
  { s with streamingErrorMessage := v }

def setEndpoints (v : List EndpointEntry) (s : Store) : Store :=
  { s with endpoints := v }

def setIsStreaming (v : Bool) (s : Store) : Store := { s with isStreaming := v }

def setIsEndpointActive (isActive : Bool) (s : Store) : Store :=
  { s with isEndpointActive := isActive }

def setIsEndpointLoading (isLoading : Bool) (s : Store) : Store :=
  { s with isEndpointLoading := isLoading }

def setMessages (arg : MessagesArg) (s : Store) : Store :=
  match arg with
  | MessagesArg.list ms => { s with messages := ms }
  | MessagesArg.update f => { s with messages := f s.messages }

def setSelectedEndpoint (v : String) (s : Store) : Store :=
  { s with selectedEndpoint := v }

def setAuthToken (v : String) (s : Store) : Store := { s with authToken := v }

def setAgents (v : List AgentDetails) (s : Store) : Store := { s with agents := v }

def setTeams (v : List TeamDetails) (s : Store) : Store := { s with teams := v }

def setSelectedModel (v : String) (s : Store) : Store :=
  { s with selectedModel := v }

def setMode (v : Mode) (s : Store) : Store := { s with mode := v }

def setSessionsData (arg : SessionsArg) (s : Store) : Store :=
  match arg with
  | SessionsArg.list v => { s with sessionsData := some v }
  | SessionsArg.update f => { s with sessionsData := f s.sessionsData }

def setIsSessionsLoading (v : Bool) (s : Store) : Store :=
  { s with isSessionsLoading := v }

/-- Every action (setter) the store exposes, with its payload. -/
inductive StoreAction where
  | setHydrated
  | setStreamingErrorMessage (v : String)
  | setEndpoints (v : List EndpointEntry)
  | setIsStreaming (v : Bool)
  | setIsEndpointActive (v : Bool)
  | setIsEndpointLoading (v : Bool)
  | setMessages (v : MessagesArg)
  | setSelectedEndpoint (v : String)
  | setAuthToken (v : String)
  | setAgents (v : List AgentDetails)
  | setTeams (v : List TeamDetails)
  | setSelectedModel (v : String)
  | setMode (v : Mode)
  | setSessionsData (v : SessionsArg)
  | setIsSessionsLoading (v : Bool)

/-- Dispatch of a store action to its setter, exactly as store.ts wires the
setters over `set`. -/
def applyAction : StoreAction → Store → Store
  | StoreAction.setHydrated, s => setHydrated s
  | StoreAction.setStreamingErrorMessage v, s => setStreamingErrorMessage v s
  | StoreAction.setEndpoints v, s => setEndpoints v s
  | StoreAction.setIsStreaming v, s => setIsStreaming v s
  | StoreAction.setIsEndpointActive v, s => setIsEndpointActive v s
  | StoreAction.setIsEndpointLoading v, s => setIsEndpointLoading v s
  | StoreAction.setMessages v, s => setMessages v s
  | StoreAction.setSelectedEndpoint v, s => setSelectedEndpoint v s
  | StoreAction.setAuthToken v, s => setAuthToken v s
  | StoreAction.setAgents v, s => setAgents v s
  | StoreAction.setTeams v, s => setTeams v s
  | StoreAction.setSelectedModel v, s => setSelectedModel v s
  | StoreAction.setMode v, s => setMode v s
  | StoreAction.setSessionsData v, s => setSessionsData v s
  | StoreAction.setIsSessionsLoading v, s => setIsSessionsLoading v s

/-- What the persist middleware writes to localStorage. -/
structure PersistedState where
  selectedEndpoint : String
  userId : String
  deriving Repr, DecidableEq

/-- The persist middleware's `partialize` from store.ts: only
`selectedEndpoint` and `userId` are persisted. -/
def partialize (s : Store) : PersistedState :=
  { selectedEndpoint := s.selectedEndpoint, userId := s.userId }

/-- The hook-level application state: the store plus the `nuqs` URL query
parameters the chat-actions hook writes (`session`, `agent`, `team`,
`db_id`). -/
structure AppState where
  store : Store
  sessionId : Option String
  agentId : Option String
  teamId : Option String
  dbId : Option String
  deriving Repr, DecidableEq

def setSessionId (v : Option String) (s : AppState) : AppState :=
  { s with sessionId := v }

def setAgentId (v : Option String) (s : AppState) : AppState :=
  { s with agentId := v }

def setTeamId (v : Option String) (s : AppState) : AppState :=
  { s with teamId := v }

def setDbId (v : Option String) (s : AppState) : AppState :=
  { s with dbId := v }

/-- Lift a store setter to the hook-level state. -/
def onStore (f : Store → Store) (s : AppState) : AppState :=
  { s with store := f s.store }

/-- Outcome of an awaited API call: it resolved with a value or rejected
with an error. -/
inductive ApiOutcome (α : Type) where
  | ok (value : α)
  | error (message : String)
  deriving Repr

/-- `getStatus` from the chat-actions hook: returns the status code of
`getStatusAPI`, and 503 when that call throws. -/
def getStatus (statusOutcome : ApiOutcome Nat) : Nat :=
  match statusOutcome with
  | ApiOutcome.ok status => status
  | ApiOutcome.error _ => 503

/-- `getAgents` from the chat-actions hook: returns the agents of
`getAgentsAPI`, and the empty list when that call throws. -/
def getAgents (agentsOutcome : ApiOutcome (List AgentDetails)) : List AgentDetails :=
  match agentsOutcome with
  | ApiOutcome.ok agents => agents
  | ApiOutcome.error _ => []

/-- How the calling layer reads a probe result: the endpoint is active
exactly on status code 200 (the `status === 200` check). -/
def isActiveStatus (status : Nat) : Bool :=
  status == 200

/-- `clearChat` from the chat-actions hook: `setMessages([])` then
`setSessionId(null)`. -/
def clearChat (s : AppState) : AppState :=
  setSessionId none (onStore (setMessages (MessagesArg.list [])) s)

/-- `addMessage` from the chat-actions hook:
`setMessages((prev) => [...prev, message])`. -/
def addMessage (message : ChatMessage) (s : AppState) : AppState :=
  onStore (setMessages (MessagesArg.update (fun prevMessages => prevMessages ++ [message]))) s

/-- The environment an `initialize` run observes: the outcomes of the two
awaited API calls. -/
structure InitEnv where
  statusOutcome : ApiOutcome Nat
  agentsOutcome : ApiOutcome (List AgentDetails)
  deriving Repr

/-- The value `initialize` resolves with on its normal path. -/
structure InitResult where
  agents : List AgentDetails
  teams : List TeamDetails
  deriving Repr, DecidableEq

/-- The `initialize` callback of the chat-actions hook on its exception-free
path: set loading, probe status, then either the active branch (store agents,
auto-select the first one) or the inactive reset branch, and finally clear
the loading flag. -/
def initializeHook (env : InitEnv) (s0 : AppState) : AppState × InitResult :=
  let s1 := onStore (setIsEndpointLoading true) s0
  let status := getStatus env.statusOutcome
  if status = 200 then
    let s2 := onStore (setIsEndpointActive true) s1
    let agents := getAgents env.agentsOutcome
    let s3 := onStore (setAgents agents) s2
    let s4 :=
      match agents with
      | [] => s3
      | firstAgent :: _ =>
        let sa := onStore (setMode Mode.agent) s3
        let sb := setAgentId (some firstAgent.id) sa
        let sc := onStore (setSelectedModel
          (match firstAgent.model with
           | some m => m.model
           | none => "")) sb
        let sd := setDbId (some (firstAgent.db_id.getD "")) sc
        setTeamId none sd
    (onStore (setIsEndpointLoading false) s4, { agents := agents, teams := [] })
  else
    let s2 := onStore (setIsEndpointActive false) s1
    let s3 := onStore (setMode Mode.agent) s2
    let s4 := onStore (setSelectedModel "") s3
    let s5 := setAgentId none s4
    let s6 := setTeamId none s5
    (onStore (setIsEndpointLoading false) s6, { agents := [], teams := [] })

/-- The `catch` and `finally` blocks of `initialize`, applied to whatever
state an exception escaping the try block left behind. -/
def initializeHookCatch (s : AppState) : AppState :=
  let s1 := onStore (setIsEndpointActive false) s
  let s2 := onStore (setMode Mode.agent) s1
  let s3 := onStore (setSelectedModel "") s2
  let s4 := setAgentId none s3
  let s5 := setTeamId none s4
  let s6 := onStore (setAgents []) s5
  let s7 := onStore (setTeams []) s6
  onStore (setIsEndpointLoading false) s7

/-- Sample concrete values used by witness theorems. -/
def sampleAgent : AgentDetails :=
  { id := "agent-1", model := some { model := "gemini-2.0-flash" }, db_id := some "db-7" }

def sampleState : AppState :=
  { store := createStore "k3j2h1" "t0"
    sessionId := none, agentId := none, teamId := none, dbId := none }

def sampleEnvActive : InitEnv :=
  { statusOutcome := ApiOutcome.ok 200, agentsOutcome := ApiOutcome.ok [sampleAgent] }

def sampleEnvDown : InitEnv :=
  { statusOutcome := ApiOutcome.error "fetch failed", agentsOutcome := ApiOutcome.error "fetch failed" }

/-- On a 200 probe, `initialize` marks the endpoint active and stores the
fetched agents (both in the store and in its resolved value). -/
lemma initializeHook_active (env : InitEnv) (s : AppState)
    (h : getStatus env.statusOutcome = 200) :
    ((initializeHook env s).1).store.isEndpointActive = true ∧
    ((initializeHook env s).1).store.agents = getAgents env.agentsOutcome ∧
    (initializeHook env s).2.agents = getAgents env.agentsOutcome := by
  cases hag : getAgents env.agentsOutcome with
  | nil =>
    simp [initializeHook, h, hag, onStore, setIsEndpointLoading, setIsEndpointActive,
      setAgents, setMode, setAgentId, setSelectedModel, setDbId, setTeamId]
  | cons firstAgent rest =>
    simp [initializeHook, h, hag, onStore, setIsEndpointLoading, setIsEndpointActive,
      setAgents, setMode, setAgentId, setSelectedModel, setDbId, setTeamId]

/-- On a non-200 probe, `initialize` marks the endpoint inactive, resets the
mode and clears the selected model, agent and team. -/
lemma initializeHook_inactive (env : InitEnv) (s : AppState)
    (h : getStatus env.statusOutcome ≠ 200) :
    ((initializeHook env s).1).store.isEndpointActive = false ∧
    ((initializeHook env s).1).store.mode = Mode.agent ∧
    ((initializeHook env s).1).store.selectedModel = "" ∧
    ((initializeHook env s).1).agentId = none ∧
    ((initializeHook env s).1).teamId = none := by
  simp [initializeHook, h, onStore, setIsEndpointLoading, setIsEndpointActive,
    setAgents, setMode, setAgentId, setSelectedModel, setDbId, setTeamId]

/-- C1: the per-browser user id is generated exactly once at store creation,
is part of the persisted slice (so the browser keeps it across sessions), and
no action the store exposes changes it. -/
theorem userId_generated_once_persisted_invariant :
    (∀ (a : StoreAction) (s : Store), (applyAction a s).userId = s.userId) ∧
    (∀ s : Store, (partialize s).userId = s.userId) ∧
    (∀ randomPart timePart : String,
      (createStore randomPart timePart).userId = generateUserId randomPart timePart) := by
  refine ⟨fun a s => ?_, fun s => rfl, fun randomPart timePart => rfl⟩
  cases a <;> try rfl
  case setMessages v => cases v <;> rfl
  case setSessionsData v => cases v <;> rfl

/-- C2: `getStatus` resolves for every outcome of the underlying status API
call (it never propagates an exception), and a provider error yields 503,
which the calling layer reads as inactive. -/
theorem getStatus_total_error_inactive :
    (∀ statusOutcome : ApiOutcome Nat, ∃ code : Nat, getStatus statusOutcome = code) ∧
    (∀ message : String,
      getStatus (ApiOutcome.error message) = 503 ∧
      isActiveStatus (getStatus (ApiOutcome.error message)) = false) := by
  refine ⟨fun statusOutcome => ⟨getStatus statusOutcome, rfl⟩, fun message => ⟨rfl, rfl⟩⟩

/-- C3: `initialize` marks the endpoint active exactly when the probe returns
200 (and then fetches and stores the agents list); on any other status it
marks it inactive, resets the mode to agent and leaves no agent or team
selected; the exception path does the same. -/
theorem initialize_decides_by_probe :
    ∀ (env : InitEnv) (s : AppState),
      (((initializeHook env s).1).store.isEndpointActive = true ↔
        getStatus env.statusOutcome = 200) ∧
      (getStatus env.statusOutcome = 200 →
        ((initializeHook env s).1).store.agents = getAgents env.agentsOutcome ∧
        (initializeHook env s).2.agents = getAgents env.agentsOutcome) ∧
      (getStatus env.statusOutcome ≠ 200 →
        ((initializeHook env s).1).store.isEndpointActive = false ∧
        ((initializeHook env s).1).store.mode = Mode.agent ∧
        ((initializeHook env s).1).store.selectedModel = "" ∧
        ((initializeHook env s).1).agentId = none ∧
        ((initializeHook env s).1).teamId = none) ∧
      (∀ sc : AppState,
        (initializeHookCatch sc).store.isEndpointActive = false ∧
        (initializeHookCatch sc).store.mode = Mode.agent ∧
        (initializeHookCatch sc).store.selectedModel = "" ∧
        (initializeHookCatch sc).agentId = none ∧
        (initializeHookCatch sc).teamId = none) := by
  intro env s
  refine ⟨⟨fun ha => ?_, fun h => (initializeHook_active env s h).1⟩,
    fun h => ⟨(initializeHook_active env s h).2.1, (initializeHook_active env s h).2.2⟩,
    fun h => initializeHook_inactive env s h,
    fun sc => ⟨rfl, rfl, rfl, rfl, rfl⟩⟩
  by_contra h
  have hfalse := (initializeHook_inactive env s h).1
  rw [hfalse] at ha
  exact Bool.false_ne_true ha

/-- C7: `addMessage` appends the new message at the end of the list and
leaves every existing message in place. -/
theorem addMessage_appends :
    ∀ (message : ChatMessage) (s : AppState),
      (addMessage message s).store.messages = s.store.messages ++ [message] :=
  fun _ _ => rfl

/-- C8: `isEndpointLoading` is set to true as `initialize` starts and is
false when it completes, on the active path, the inactive path and the
exception (catch/finally) path alike. -/
theorem initialize_loading_lifecycle :
    (∀ s : AppState, (onStore (setIsEndpointLoading true) s).store.isEndpointLoading = true) ∧
    (∀ (env : InitEnv) (s : AppState),
      ((initializeHook env s).1).store.isEndpointLoading = false) ∧
    (∀ s : AppState, (initializeHookCatch s).store.isEndpointLoading = false) := by
  refine ⟨fun s => rfl, fun env s => ?_, fun s => rfl⟩
  by_cases h : getStatus env.statusOutcome = 200
  · cases hag : getAgents env.agentsOutcome with
    | nil => simp [initializeHook, h, hag, onStore, setIsEndpointLoading]
    | cons firstAgent rest =>
      simp [initializeHook, h, hag, onStore, setIsEndpointLoading, setIsEndpointActive,
        setAgents, setMode, setAgentId, setSelectedModel, setDbId, setTeamId]
  · simp [initializeHook, h, onStore, setIsEndpointLoading]

/-- C9: when the probe returns 200 and the fetched agents list is non-empty,
`initialize` auto-selects the first agent: agent mode, its id as the agent
query parameter, its model (or empty) as selected model, its db id (or
empty) as the db query parameter, and the team parameter cleared. -/
theorem initialize_autoselects_first_agent :
    ∀ (env : InitEnv) (s : AppState) (firstAgent : AgentDetails)
      (rest : List AgentDetails),
      getStatus env.statusOutcome = 200 →
      getAgents env.agentsOutcome = firstAgent :: rest →
      ((initializeHook env s).1).store.mode = Mode.agent ∧
      ((initializeHook env s).1).agentId = some firstAgent.id ∧
      ((initializeHook env s).1).store.selectedModel =
        (match firstAgent.model with
         | some m => m.model
         | none => "") ∧
      ((initializeHook env s).1).dbId = some (firstAgent.db_id.getD "") ∧
      ((initializeHook env s).1).teamId = none := by
  intro env s firstAgent rest h hag
  simp [initializeHook, h, hag, onStore, setIsEndpointLoading, setIsEndpointActive,
    setAgents, setMode, setAgentId, setSelectedModel, setDbId, setTeamId]

/-- Witness for C9: a concrete run with status 200 and one agent selects that
agent. -/
theorem initialize_autoselects_first_agent_witness :
    getStatus sampleEnvActive.statusOutcome = 200 ∧
    ((initializeHook sampleEnvActive sampleState).1).agentId = some sampleAgent.id ∧
    ((initializeHook sampleEnvActive sampleState).1).teamId = none :=
  ⟨rfl,
    (initialize_autoselects_first_agent sampleEnvActive sampleState sampleAgent [] rfl rfl).2.1,
    (initialize_autoselects_first_agent sampleEnvActive sampleState sampleAgent [] rfl rfl).2.2.2.2⟩

/-- C10: `clearChat` empties the message list and clears the session query
parameter, and changes nothing else in the application state. -/
theorem clearChat_resets_only_conversation :
    ∀ s : AppState,
      (clearChat s).store.messages = [] ∧
      (clearChat s).sessionId = none ∧
      (clearChat s).store.hydrated = s.store.hydrated ∧
      (clearChat s).store.userId = s.store.userId ∧
      (clearChat s).store.streamingErrorMessage = s.store.streamingErrorMessage ∧
      (clearChat s).store.endpoints = s.store.endpoints ∧
      (clearChat s).store.isStreaming = s.store.isStreaming ∧
      (clearChat s).store.isEndpointActive = s.store.isEndpointActive ∧
      (clearChat s).store.isEndpointLoading = s.store.isEndpointLoading ∧
      (clearChat s).store.selectedEndpoint = s.store.selectedEndpoint ∧
      (clearChat s).store.authToken = s.store.authToken ∧
      (clearChat s).store.agents = s.store.agents ∧
      (clearChat s).store.teams = s.store.teams ∧
      (clearChat s).store.selectedModel = s.store.selectedModel ∧
      (clearChat s).store.mode = s.store.mode ∧
      (clearChat s).store.sessionsData = s.store.sessionsData ∧
      (clearChat s).store.isSessionsLoading = s.store.isSessionsLoading ∧
      (clearChat s).agentId = s.agentId ∧
      (clearChat s).teamId = s.teamId ∧
      (clearChat s).dbId = s.dbId :=
  fun s =>
    ⟨rfl, rfl, rfl, rfl, rfl, rfl, rfl, rfl, rfl, rfl,
     rfl, rfl, rfl, rfl, rfl, rfl, rfl, rfl, rfl, rfl⟩

/-- Modelled from the spec: an `EmotionSignal` — a detected affect category
with a confidence in [0,1] and the matched cues (the classifier's output for
one message). The classifier itself is not in the inspected files. -/
structure EmotionSignal where
  category : String
  confidence : Rat
  matchedCues : List String
  deriving Repr, DecidableEq

/-- Modelled from the spec: the active `PersonalityState` of a session — the
current profile id, the last-switch timestamp, and the explicit-override
(pinned) flag. The selector itself is not in the inspected files. -/
structure PersonalityState where
  current : String
  lastSwitch : Nat
  overridePinned : Bool
  deriving Repr, DecidableEq

/-- Modelled from the spec: the selector's configuration — the set of valid
profile ids and the switch-confidence threshold (configuration values, not
hard-baked). -/
structure SelectorConfig where
  profileIds : List String
  switchThreshold : Rat
  deriving Repr, DecidableEq

/-- Modelled from the spec: the PersonalitySelector transition rule.
Rule 1: a valid override id transitions unconditionally to it and pins the
state (an unknown override id is ignored and the current state retained).
Rule 2: otherwise, a top-signal confidence below the switch threshold
remains in the current state.  Rule 3: otherwise, transition to the profile
matching the top signal's category.  The last-switch timestamp is updated
only on an actual state change.  The selector is not in the inspected
files. -/
def selectPersonality (config : SelectorConfig) (prev : PersonalityState)
    (signal : EmotionSignal) (override : Option String) (now : Nat) :
    PersonalityState :=
  match override with
  | some overrideId =>
    if overrideId ∈ config.profileIds then
      { current := overrideId
        lastSwitch := if overrideId = prev.current then prev.lastSwitch else now
        overridePinned := true }
    else
      prev
  | none =>
    if signal.confidence < config.switchThreshold then
      prev
    else if signal.category = prev.current then
      prev
    else
      { current := signal.category
        lastSwitch := now
        overridePinned := prev.overridePinned }

/-- C4: stickiness — with no override and a top-signal confidence below the
switch threshold, the selector keeps the previous personality state
unchanged, whatever that state was. -/
theorem selector_stickiness (config : SelectorConfig) (prev : PersonalityState)
    (signal : EmotionSignal) (now : Nat)
    (h : signal.confidence < config.switchThreshold) :
    selectPersonality config prev signal none now = prev := by
  simp [selectPersonality, h]

/-- Witness for C4: a concrete ambiguous signal (confidence 1/2, threshold
7/10) leaves a non-default personality in place. -/
theorem selector_stickiness_witness :
    selectPersonality
      { profileIds := ["calm", "witty", "supportive"], switchThreshold := (7 : Rat) / 10 }
      { current := "witty", lastSwitch := 5, overridePinned := false }
      { category := "supportive", confidence := (1 : Rat) / 2, matchedCues := ["stressed"] }
      none 9 =
      { current := "witty", lastSwitch := 5, overridePinned := false } :=
  selector_stickiness _ _ _ _ (by norm_num)

/-- C6: the selector is deterministic — two runs on identical inputs
(previous state, signal, override, and the clock reading it may stamp)
produce identical next states; moreover the selected personality id does not
even depend on the clock, only on the three declared inputs. -/
theorem selector_deterministic (config : SelectorConfig)
    (prev1 prev2 : PersonalityState) (signal1 signal2 : EmotionSignal)
    (override1 override2 : Option String) (now1 now2 : Nat)
    (hprev : prev1 = prev2) (hsig : signal1 = signal2)
    (hover : override1 = override2) (hnow : now1 = now2) :
    selectPersonality config prev1 signal1 override1 now1 =
      selectPersonality config prev2 signal2 override2 now2 ∧
    (selectPersonality config prev1 signal1 override1 now1).current =
      (selectPersonality config prev1 signal1 override1 now2).current := by
  subst hprev; subst hsig; subst hover; subst hnow
  refine ⟨rfl, ?_⟩
  cases override1 with
  | none =>
    by_cases h1 : signal1.confidence < config.switchThreshold
    · simp [selectPersonality, h1]
    · by_cases h2 : signal1.category = prev1.current <;>
        simp [selectPersonality, h1, h2]
  | some overrideId =>
    by_cases h1 : overrideId ∈ config.profileIds <;>
      simp [selectPersonality, h1]

/-- Witness for C6: equal concrete inputs give equal outputs. -/
theorem selector_deterministic_witness :
    selectPersonality
      { profileIds := ["calm", "witty", "supportive"], switchThreshold := (7 : Rat) / 10 }
      { current := "calm", lastSwitch := 0, overridePinned := false }
      { category := "supportive", confidence := (9 : Rat) / 10, matchedCues := ["stressed"] }
      none 3 =
    selectPersonality
      { profileIds := ["calm", "witty", "supportive"], switchThreshold := (7 : Rat) / 10 }
      { current := "calm", lastSwitch := 0, overridePinned := false }
      { category := "supportive", confidence := (9 : Rat) / 10, matchedCues := ["stressed"] }
      none 3 :=
  (selector_deterministic _ _ _ _ _ _ _ _ _ rfl rfl rfl rfl).1

/-- Modelled from the spec: the kind of a durable memory entry
(`preference | fact | emotion`). The memory subsystem is not in the
inspected files. -/
inductive EntryKind where
  | preference
  | fact
  | emotion
  deriving Repr, DecidableEq

/-- Modelled from the spec: one durable `MemoryEntry` — kind, normalized
key (the normalized category a preference is keyed by), normalized content,
confidence and timestamp. -/
structure MemoryEntry where
  kind : EntryKind
  key : String
  content : String
  confidence : Rat
  timestamp : Nat
  deriving Repr, DecidableEq

/-- The entry is a stored preference for `key`. -/
abbrev isPrefFor (key : String) (x : MemoryEntry) : Prop :=
  x.kind = EntryKind.preference ∧ x.key = key

/-- Some stored preference uses `key`. -/
abbrev hasPrefKey (entries : List MemoryEntry) (key : String) : Prop :=
  ∃ x ∈ entries, isPrefFor key x

/-- Overwrite the stored preference for `e.key` with `e` (latest wins). -/
def replacePref (entries : List MemoryEntry) (e : MemoryEntry) : List MemoryEntry :=
  entries.map fun x => if isPrefFor e.key x then e else x

/-- A stored entry of the same kind with the same normalized content. -/
abbrev isDuplicate (entries : List MemoryEntry) (e : MemoryEntry) : Prop :=
  ∃ x ∈ entries, x.kind = e.kind ∧ x.content = e.content

/-- Modelled from the spec: merge one extracted entry into a user's entry
set — a `preference` overwrites the prior value for its normalized key (and
is appended when the key is new); `fact`/`emotion` entries are appended
unless a normalized-content duplicate of the same kind already exists. -/
def upsertOne (entries : List MemoryEntry) (e : MemoryEntry) : List MemoryEntry :=
  if e.kind = EntryKind.preference then
    if hasPrefKey entries e.key then replacePref entries e else entries ++ [e]
  else
    if isDuplicate entries e then entries else entries ++ [e]

/-- Modelled from the spec: `upsert` merges an extraction result into a
user's entry set, entry by entry in order. -/
def upsert (entries : List MemoryEntry) (newEntries : List MemoryEntry) : List MemoryEntry :=
  newEntries.foldl upsertOne entries

/-- Modelled from the spec: the MemoryStore, keyed by the opaque per-user
identifier. -/
def MemoryStore : Type := String → List MemoryEntry

/-- Modelled from the spec: `upsert(userId, entries)` on the store — only
the given user's entry set is merged, atomically. -/
def upsertStore (store : MemoryStore) (userId : String)
    (newEntries : List MemoryEntry) : MemoryStore :=
  fun u => if u = userId then upsert (store u) newEntries else store u

lemma map_eq_self_of (f : MemoryEntry → MemoryEntry) :
    ∀ l : List MemoryEntry, (∀ x ∈ l, f x = x) → l.map f = l := by
  intro l h
  induction l with
  | nil => rfl
  | cons a t ih =>
    simp only [List.map_cons]
    rw [h a (by simp), ih fun x hx => h x (by simp [hx])]

lemma map_congr_of (f g : MemoryEntry → MemoryEntry) :
    ∀ l : List MemoryEntry, (∀ x ∈ l, f x = g x) → l.map f = l.map g := by
  intro l h
  induction l with
  | nil => rfl
  | cons a t ih =>
    simp only [List.map_cons]
    rw [h a (by simp), ih fun x hx => h x (by simp [hx])]

/-- Replacing when every stored preference for the key already equals the
replacement is a no-op. -/
lemma replacePref_eq_of_all (entries : List MemoryEntry) (e : MemoryEntry)
    (h : ∀ x ∈ entries, isPrefFor e.key x → x = e) :
    replacePref entries e = entries := by
  apply map_eq_self_of
  intro x hx
  by_cases hp : isPrefFor e.key x
  · rw [if_pos hp]; exact (h x hx hp).symm
  · rw [if_neg hp]

/-- Replacement neither creates nor destroys the presence of a preference
key. -/
lemma hasPrefKey_replacePref_iff (entries : List MemoryEntry) (e : MemoryEntry)
    (hk : e.kind = EntryKind.preference) (k : String) :
    hasPrefKey (replacePref entries e) k ↔ hasPrefKey entries k := by
  constructor
  · rintro ⟨y, hy, hpy⟩
    rw [replacePref, List.mem_map] at hy
    obtain ⟨x, hx, hfx⟩ := hy
    by_cases hp : isPrefFor e.key x
    · rw [if_pos hp] at hfx
      subst hfx
      exact ⟨x, hx, hp.1, by rw [hp.2, hpy.2]⟩
    · rw [if_neg hp] at hfx
      subst hfx
      exact ⟨x, hx, hpy⟩
  · rintro ⟨x, hx, hpx⟩
    by_cases hp : isPrefFor e.key x
    · exact ⟨e, List.mem_map.mpr ⟨x, hx, if_pos hp⟩, hk, by rw [← hp.2, hpx.2]⟩
    · exact ⟨x, List.mem_map.mpr ⟨x, hx, if_neg hp⟩, hpx⟩

/-- Merging any entry preserves the presence of a preference key. -/
lemma hasPrefKey_upsertOne (entries : List MemoryEntry) (e : MemoryEntry)
    (k : String) (h : hasPrefKey entries k) : hasPrefKey (upsertOne entries e) k := by
  obtain ⟨x, hx, hpx⟩ := h
  unfold upsertOne
  split_ifs with h1 h2 h3
  · exact (hasPrefKey_replacePref_iff entries e h1 k).mpr ⟨x, hx, hpx⟩
  · exact ⟨x, by simp [hx], hpx⟩
  · exact ⟨x, hx, hpx⟩
  · exact ⟨x, by simp [hx], hpx⟩

/-- Merging a whole extraction result preserves the presence of a
preference key. -/
lemma hasPrefKey_upsert (t : List MemoryEntry) :
    ∀ (entries : List MemoryEntry) (k : String),
      hasPrefKey entries k → hasPrefKey (upsert entries t) k := by
  induction t with
  | nil => intro entries k h; exact h
  | cons e tt ih =>
    intro entries k h
    exact ih (upsertOne entries e) k (hasPrefKey_upsertOne entries e k h)

/-- Replacement by a preference neither creates nor destroys a fact/emotion
duplicate. -/
lemma isDuplicate_replacePref_iff (entries : List MemoryEntry)
    (ePref eDup : MemoryEntry) (hk : ePref.kind = EntryKind.preference)
    (he : eDup.kind ≠ EntryKind.preference) :
    isDuplicate (replacePref entries ePref) eDup ↔ isDuplicate entries eDup := by
  constructor
  · rintro ⟨y, hy, hkind, hcontent⟩
    rw [replacePref, List.mem_map] at hy
    obtain ⟨x, hx, hfx⟩ := hy
    by_cases hp : isPrefFor ePref.key x
    · rw [if_pos hp] at hfx
      subst hfx
      exact absurd (hkind.symm.trans hk) he
    · rw [if_neg hp] at hfx
      subst hfx
      exact ⟨x, hx, hkind, hcontent⟩
  · rintro ⟨x, hx, hkind, hcontent⟩
    have hp : ¬ isPrefFor ePref.key x := fun hpx => he (by rw [← hkind, hpx.1])
    exact ⟨x, List.mem_map.mpr ⟨x, hx, if_neg hp⟩, hkind, hcontent⟩

/-- Merging any entry preserves a fact/emotion duplicate. -/
lemma isDuplicate_upsertOne (entries : List MemoryEntry) (e eNew : MemoryEntry)
    (he : e.kind ≠ EntryKind.preference) (h : isDuplicate entries e) :
    isDuplicate (upsertOne entries eNew) e := by
  obtain ⟨x, hx, hrest⟩ := h
  unfold upsertOne
  split_ifs with h1 h2 h3
  · exact (isDuplicate_replacePref_iff entries eNew e h1 he).mpr ⟨x, hx, hrest⟩
  · exact ⟨x, by simp [hx], hrest⟩
  · exact ⟨x, hx, hrest⟩
  · exact ⟨x, by simp [hx], hrest⟩

/-- Merging a whole extraction result preserves a fact/emotion duplicate. -/
lemma isDuplicate_upsert (t : List MemoryEntry) :
    ∀ (entries : List MemoryEntry) (e : MemoryEntry),
      e.kind ≠ EntryKind.preference → isDuplicate entries e →
      isDuplicate (upsert entries t) e := by
  induction t with
  | nil => intro entries e _ h; exact h
  | cons eNew tt ih =>
    intro entries e he h
    exact ih (upsertOne entries eNew) e he (isDuplicate_upsertOne entries e eNew he h)

/-- After merging a preference, its key is present. -/
lemma hasPrefKey_upsertOne_self (entries : List MemoryEntry) (e : MemoryEntry)
    (hk : e.kind = EntryKind.preference) :
    hasPrefKey (upsertOne entries e) e.key := by
  unfold upsertOne
  rw [if_pos hk]
  split_ifs with h2
  · exact (hasPrefKey_replacePref_iff entries e hk e.key).mpr h2
  · exact ⟨e, by simp, hk, rfl⟩

/-- After merging a fact/emotion entry, a same-kind same-content entry is
present. -/
lemma isDuplicate_upsertOne_self (entries : List MemoryEntry) (e : MemoryEntry)
    (he : e.kind ≠ EntryKind.preference) :
    isDuplicate (upsertOne entries e) e := by
  unfold upsertOne
  rw [if_neg he]
  split_ifs with h2
  · exact h2
  · exact ⟨e, by simp, rfl, rfl⟩

/-- After merging a preference, every stored preference for its key equals
it. -/
lemma prefAll_upsertOne_self (entries : List MemoryEntry) (e : MemoryEntry)
    (hk : e.kind = EntryKind.preference) :
    ∀ x ∈ upsertOne entries e, isPrefFor e.key x → x = e := by
  unfold upsertOne
  rw [if_pos hk]
  split_ifs with h2
  · intro x hx hpx
    rw [replacePref, List.mem_map] at hx
    obtain ⟨y, hy, hfy⟩ := hx
    by_cases hp : isPrefFor e.key y
    · rw [if_pos hp] at hfy
      exact hfy.symm
    · rw [if_neg hp] at hfy
      subst hfy
      exact absurd hpx hp
  · intro x hx hpx
    rcases List.mem_append.mp hx with hx | hx
    · exact absurd ⟨x, hx, hpx⟩ h2
    · simpa using hx

/-- Merging an entry that is not a preference for key `k` preserves the
fact that every stored preference for `k` equals `e`. -/
lemma prefAll_upsertOne_preserve (entries : List MemoryEntry)
    (eNew e : MemoryEntry) (k : String)
    (h : ∀ x ∈ entries, isPrefFor k x → x = e) (hnew : ¬ isPrefFor k eNew) :
    ∀ x ∈ upsertOne entries eNew, isPrefFor k x → x = e := by
  unfold upsertOne
  split_ifs with h1 h2 h3
  · intro x hx hpx
    rw [replacePref, List.mem_map] at hx
    obtain ⟨y, hy, hfy⟩ := hx
    by_cases hp : isPrefFor eNew.key y
    · rw [if_pos hp] at hfy
      subst hfy
      exact absurd hpx hnew
    · rw [if_neg hp] at hfy
      subst hfy
      exact h y hy hpx
  · intro x hx hpx
    rcases List.mem_append.mp hx with hx | hx
    · exact h x hx hpx
    · rw [List.mem_singleton] at hx
      subst hx
      exact absurd hpx hnew
  · exact h
  · intro x hx hpx
    rcases List.mem_append.mp hx with hx | hx
    · exact h x hx hpx
    · rw [List.mem_singleton] at hx
      subst hx
      exact absurd hpx hnew

/-- Merging a result that contains no preference for key `k` preserves the
fact that every stored preference for `k` equals `e`. -/
lemma prefAll_upsert_preserve (t : List MemoryEntry) :
    ∀ (entries : List MemoryEntry) (e : MemoryEntry) (k : String),
      (∀ x ∈ entries, isPrefFor k x → x = e) →
      (∀ y ∈ t, ¬ isPrefFor k y) →
      ∀ x ∈ upsert entries t, isPrefFor k x → x = e := by
  induction t with
  | nil => intro entries e k h _ x hx; exact h x hx
  | cons eNew tt ih =>
    intro entries e k h ht
    exact ih (upsertOne entries eNew) e k
      (prefAll_upsertOne_preserve entries eNew e k h (ht eNew (by simp)))
      fun y hy => ht y (by simp [hy])

/-- Two successive replacements at the same key collapse to the second. -/
lemma replacePref_collapse (entries : List MemoryEntry) (e e2 : MemoryEntry)
    (h : isPrefFor e2.key e) :
    replacePref (replacePref entries e) e2 = replacePref entries e2 := by
  unfold replacePref
  rw [List.map_map]
  apply map_congr_of
  intro x _
  show (if isPrefFor e2.key (if isPrefFor e.key x then e else x) then e2
    else if isPrefFor e.key x then e else x) = if isPrefFor e2.key x then e2 else x
  by_cases hp : isPrefFor e.key x
  · rw [if_pos hp, if_pos h, if_pos ⟨hp.1, hp.2.trans h.2⟩]
  · rw [if_neg hp]

/-- Replacements at two distinct keys commute. -/
lemma replacePref_comm_of_ne (entries : List MemoryEntry) (e1 e2 : MemoryEntry)
    (hne : e1.key ≠ e2.key) :
    replacePref (replacePref entries e1) e2 = replacePref (replacePref entries e2) e1 := by
  unfold replacePref
  rw [List.map_map, List.map_map]
  apply map_congr_of
  intro x _
  show (if isPrefFor e2.key (if isPrefFor e1.key x then e1 else x) then e2
    else if isPrefFor e1.key x then e1 else x) =
    (if isPrefFor e1.key (if isPrefFor e2.key x then e2 else x) then e1
    else if isPrefFor e2.key x then e2 else x)
  by_cases hp1 : isPrefFor e1.key x
  · have hp2 : ¬ isPrefFor e2.key x := fun hc => hne (hp1.2.symm.trans hc.2)
    rw [if_pos hp1, if_neg (fun hc : isPrefFor e2.key e1 => hne hc.2),
      if_neg hp2, if_pos hp1]
  · by_cases hp2 : isPrefFor e2.key x
    · rw [if_neg hp1, if_pos hp2,
        if_neg (fun hc : isPrefFor e1.key e2 => hne hc.2.symm)]
    · rw [if_neg hp1, if_neg hp2, if_neg hp1]


/-- Equation: merging a preference whose key is present replaces. -/
lemma upsertOne_pref_replace (entries : List MemoryEntry) (e : MemoryEntry)
    (hk : e.kind = EntryKind.preference) (hhas : hasPrefKey entries e.key) :
    upsertOne entries e = replacePref entries e := by
  unfold upsertOne
  rw [if_pos hk, if_pos hhas]

/-- Equation: merging a preference whose key is new appends. -/
lemma upsertOne_pref_append (entries : List MemoryEntry) (e : MemoryEntry)
    (hk : e.kind = EntryKind.preference) (hhas : ¬ hasPrefKey entries e.key) :
    upsertOne entries e = entries ++ [e] := by
  unfold upsertOne
  rw [if_pos hk, if_neg hhas]

/-- Equation: merging a fact/emotion entry already present is a no-op. -/
lemma upsertOne_dup (entries : List MemoryEntry) (e : MemoryEntry)
    (he : ¬ e.kind = EntryKind.preference) (hdup : isDuplicate entries e) :
    upsertOne entries e = entries := by
  unfold upsertOne
  rw [if_neg he, if_pos hdup]

/-- Equation: merging a new fact/emotion entry appends. -/
lemma upsertOne_nodup (entries : List MemoryEntry) (e : MemoryEntry)
    (he : ¬ e.kind = EntryKind.preference) (hdup : ¬ isDuplicate entries e) :
    upsertOne entries e = entries ++ [e] := by
  unfold upsertOne
  rw [if_neg he, if_neg hdup]

/-- Appending an entry that is not a preference for `e.key` commutes with
replacement at `e.key`. -/
lemma replacePref_append_single (entries : List MemoryEntry) (e eNew : MemoryEntry)
    (hnew : ¬ isPrefFor e.key eNew) :
    replacePref (entries ++ [eNew]) e = replacePref entries e ++ [eNew] := by
  unfold replacePref
  rw [List.map_append]
  simp [if_neg hnew]

/-- Merging an entry that is not a preference for `e.key` commutes with
replacement at `e.key` (given the key is already present). -/
lemma upsertOne_replacePref_comm (entries : List MemoryEntry)
    (e eNext : MemoryEntry) (hk : e.kind = EntryKind.preference)
    (hhas : hasPrefKey entries e.key) (hne : ¬ isPrefFor e.key eNext) :
    upsertOne (replacePref entries e) eNext = replacePref (upsertOne entries eNext) e := by
  by_cases hkN : eNext.kind = EntryKind.preference
  · by_cases hhasN : hasPrefKey entries eNext.key
    · rw [upsertOne_pref_replace (replacePref entries e) eNext hkN
          ((hasPrefKey_replacePref_iff entries e hk eNext.key).mpr hhasN),
        upsertOne_pref_replace entries eNext hkN hhasN]
      exact replacePref_comm_of_ne entries e eNext
        (fun hc => hne ⟨hkN, hc.symm⟩)
    · rw [upsertOne_pref_append (replacePref entries e) eNext hkN
          (fun hc => hhasN ((hasPrefKey_replacePref_iff entries e hk eNext.key).mp hc)),
        upsertOne_pref_append entries eNext hkN hhasN,
        replacePref_append_single entries e eNext hne]
  · by_cases hdup : isDuplicate entries eNext
    · rw [upsertOne_dup (replacePref entries e) eNext hkN
          ((isDuplicate_replacePref_iff entries e eNext hk hkN).mpr hdup),
        upsertOne_dup entries eNext hkN hdup]
    · rw [upsertOne_nodup (replacePref entries e) eNext hkN
          (fun hc => hdup ((isDuplicate_replacePref_iff entries e eNext hk hkN).mp hc)),
        upsertOne_nodup entries eNext hkN hdup,
        replacePref_append_single entries e eNext hne]

/-- When a later entry of the result will overwrite key `e.key` anyway, a
prior replacement at that key does not change the merge's outcome. -/
lemma upsert_replacePref_of_mem (t : List MemoryEntry) :
    ∀ (entries : List MemoryEntry) (e : MemoryEntry),
      e.kind = EntryKind.preference → hasPrefKey entries e.key →
      (∃ y ∈ t, isPrefFor e.key y) →
      upsert (replacePref entries e) t = upsert entries t := by
  induction t with
  | nil =>
    intro entries e _ _ hex
    simp at hex
  | cons eNext tt ih =>
    intro entries e hk hhas hex
    show upsert (upsertOne (replacePref entries e) eNext) tt =
      upsert (upsertOne entries eNext) tt
    by_cases hmatch : isPrefFor e.key eNext
    · have hkN : eNext.kind = EntryKind.preference := hmatch.1
      have hhasN : hasPrefKey entries eNext.key := by
        rw [hmatch.2]; exact hhas
      rw [upsertOne_pref_replace (replacePref entries e) eNext hkN
          ((hasPrefKey_replacePref_iff entries e hk eNext.key).mpr hhasN),
        upsertOne_pref_replace entries eNext hkN hhasN,
        replacePref_collapse entries e eNext ⟨hk, hmatch.2.symm⟩]
    · have hex' : ∃ y ∈ tt, isPrefFor e.key y := by
        obtain ⟨y, hy, hpy⟩ := hex
        rcases List.mem_cons.mp hy with rfl | hy'
        · exact absurd hpy hmatch
        · exact ⟨y, hy', hpy⟩
      rw [upsertOne_replacePref_comm entries e eNext hk hhas hmatch]
      exact ih (upsertOne entries eNext) e hk
        (hasPrefKey_upsertOne entries eNext e.key hhas) hex'

/-- Merging the same extraction result a second time is a no-op. -/
lemma upsert_idem (newEntries : List MemoryEntry) :
    ∀ entries : List MemoryEntry,
      upsert (upsert entries newEntries) newEntries = upsert entries newEntries := by
  induction newEntries with
  | nil => intro entries; rfl
  | cons e t ih =>
    intro entries
    show upsert (upsertOne (upsert (upsertOne entries e) t) e) t =
      upsert (upsertOne entries e) t
    by_cases hk : e.kind = EntryKind.preference
    · have hhasM : hasPrefKey (upsert (upsertOne entries e) t) e.key :=
        hasPrefKey_upsert t (upsertOne entries e) e.key
          (hasPrefKey_upsertOne_self entries e hk)
      rw [upsertOne_pref_replace (upsert (upsertOne entries e) t) e hk hhasM]
      by_cases hex : ∃ y ∈ t, isPrefFor e.key y
      · rw [upsert_replacePref_of_mem t (upsert (upsertOne entries e) t) e hk hhasM hex]
        exact ih (upsertOne entries e)
      · have ht : ∀ y ∈ t, ¬ isPrefFor e.key y := fun y hy hpy => hex ⟨y, hy, hpy⟩
        have hall : ∀ x ∈ upsert (upsertOne entries e) t, isPrefFor e.key x → x = e :=
          prefAll_upsert_preserve t (upsertOne entries e) e e.key
            (prefAll_upsertOne_self entries e hk) ht
        rw [replacePref_eq_of_all (upsert (upsertOne entries e) t) e hall]
        exact ih (upsertOne entries e)
    · have hdupM : isDuplicate (upsert (upsertOne entries e) t) e :=
        isDuplicate_upsert t (upsertOne entries e) e hk
          (isDuplicate_upsertOne_self entries e hk)
      rw [upsertOne_dup (upsert (upsertOne entries e) t) e hk hdupM]
      exact ih (upsertOne entries e)

/-- C5: memory merge is idempotent — applying the same extraction result
twice through the store's upsert leaves every user's stored entry set equal
to the state after the first application (fact/emotion dedup, preference
overwrite-to-same-value). -/
theorem memory_merge_idempotent :
    ∀ (store : MemoryStore) (userId : String) (newEntries : List MemoryEntry),
      upsertStore (upsertStore store userId newEntries) userId newEntries =
        upsertStore store userId newEntries := by
  intro store userId newEntries
  funext u
  simp only [upsertStore]
  by_cases h : u = userId
  · simp [h, upsert_idem newEntries (store userId)]
  · simp [h]
